import Mathlib

set_option maxRecDepth 8000

/-! Shallow embedding of `scripts/bundle_lighting.py`.

Filesystem model: an absolute path is its list of name components (the
leading `/` component of `Path.parts` is left implicit; `/` is never in
`SKIP_DIRS`, so dropping it changes nothing).  A directory tree is a
finite tree whose files carry the outcome of reading them:
`Except.ok text` is the decoded text (`read_text` with `errors="ignore"`
never fails on decoding), `Except.error e` models an `OSError` raised by
the read.  `Path.resolve` is modelled as the identity: the model has no
symlinks and every path is already absolute and normalised.  `os.walk`
and `Path.rglob` enumerate directory entries in the order of the
children list of the tree. -/

mutual

inductive FSTree : Type where
  | file : Except String String → FSTree
  | dir : FSList → FSTree

inductive FSList : Type where
  | nil : FSList
  | cons : String → FSTree → FSList → FSList

end

/-- A repository: the absolute path of `REPO_ROOT` (as components) and the
directory entries beneath it. -/
structure Repo where
  root : List String
  tree : FSList

/-- SKIP_DIRS from the script (a set; only membership is used). -/
def SKIP_DIRS : List String :=
  [".git", "target", "old-codebase", "assets", "showcase_output",
   "schematics", "worlds", ".claude"]

/-- CODE_EXTS from the script: extension to language-label map. -/
def CODE_EXTS : List (String × String) :=
  [(".rs", "rust"), (".toml", "toml"), (".ron", "ron")]

/-- Keys of CODE_EXTS (the eligible extensions). -/
def extKeys : List String := CODE_EXTS.map (fun e => e.fst)

/-- Word character for `\b`, modelled over ASCII (`[A-Za-z0-9_]`); every
text the development evaluates is ASCII. -/
def isWordChar (c : Char) : Bool := c.isAlpha || c.isDigit || c == '_'

/-- Index of the last `.` in a component name (`str.rfind`). -/
def lastDotIdx (cs : List Char) : Option Nat :=
  ((List.range cs.length).filter (fun i => cs.getD i ' ' == '.')).getLast?

/-- Model of `PurePath.suffix` on one name: `name[i:]` when the last dot
sits at `0 < i < len(name) - 1`, else the empty string. -/
def suffix (name : String) : String :=
  let cs := name.data
  match lastDotIdx cs with
  | some i => if 0 < i && i + 1 < cs.length then String.mk (cs.drop i) else ""
  | none => ""

/-- Last component of a path (`PurePath.name`; empty for the root). -/
def lastComp : List String → String
  | [] => ""
  | [a] => a
  | _ :: rest => lastComp rest

/-- Occurrence of a literal at position `i` of the text, with a `\b`
word boundary on each side.  All literals of the pattern set start and
end with word characters, so `\b` next to them holds exactly when the
adjacent text character (if any) is a non-word character. -/
def litAt (lit text : List Char) (i : Nat) : Bool :=
  ((text.drop i).take lit.length == lit)
    && (i == 0 || !isWordChar (text.getD (i - 1) ' '))
    && (i + lit.length == text.length || !isWordChar (text.getD (i + lit.length) ' '))

/-- Existence of a word-delimited occurrence of a literal (`re.search`). -/
def litSearch (lit : String) (text : List Char) : Bool :=
  (List.range (text.length + 1)).any (fun i => litAt lit.data text i)

/-- An alternation regex has a match somewhere iff one of its literal
alternatives occurs word-delimited. -/
def rxSearch (alts : List String) (text : String) : Bool :=
  alts.any (fun lit => litSearch lit text.data)

/-- COMPILED patterns of the script, each regex unfolded into the set of
word-delimited literal alternatives it can match:
`\bgeist_lighting\b`; `\bLighting(Store|Border|s|)\b`;
`\bLight(Borders|Emitter|ing|)\b`; `\bRebuildCause::LightingBorder\b`. -/
def COMPILED : List (List String) :=
  [["geist_lighting"],
   ["LightingStore", "LightingBorder", "Lightings", "Lighting"],
   ["LightBorders", "LightEmitter", "Lighting", "Light"],
   ["RebuildCause::LightingBorder"]]

/-- `is_skipped_dir`: some component of the (absolute) path is in
SKIP_DIRS. -/
def is_skipped_dir (p : List String) : Bool :=
  p.any (fun c => decide (c ∈ SKIP_DIRS))

/-- String form of an absolute path, as `str(Path)` renders it. -/
def pathStr (p : List String) : String :=
  "/" ++ String.intercalate "/" p

/-- Model of `str.startswith`. -/
def strStartsWith (s pre : String) : Bool :=
  pre.data.isPrefixOf s.data

/-- Directory-entry lookup by name (`os.scandir` resolution). -/
def findEntry : FSList → String → Option FSTree
  | FSList.nil, _ => none
  | FSList.cons m t rest, n => if m == n then some t else findEntry rest n

/-- Lookup of a path relative to a directory listing. -/
def lookupRel (ch : FSList) : List String → Option FSTree
  | [] => some (FSTree.dir ch)
  | n :: rest =>
    match findEntry ch n with
    | some (FSTree.dir ch2) => lookupRel ch2 rest
    | some (FSTree.file c) => if rest.isEmpty then some (FSTree.file c) else none
    | none => none

/-- Lookup of an absolute path in the repository. -/
def lookupAbs (repo : Repo) (p : List String) : Option FSTree :=
  if repo.root.isPrefixOf p then lookupRel repo.tree (p.drop repo.root.length)
  else none

/-- Model of `Path.is_file`. -/
def is_file (repo : Repo) (p : List String) : Bool :=
  match lookupAbs repo p with
  | some (FSTree.file _) => true
  | _ => false

/-- Model of `Path.read_text(encoding="utf-8", errors="ignore")`: the
stored read outcome of the file, an error for anything else. -/
def read_text (repo : Repo) (p : List String) : Except String String :=
  match lookupAbs repo p with
  | some (FSTree.file c) => c
  | _ => Except.error "No such file or directory"

/-- `p.suffix in CODE_EXTS` (dict-key membership). -/
def eligibleExt (p : List String) : Bool :=
  decide (suffix (lastComp p) ∈ extKeys)

/-- `file_matches` from the script. -/
def file_matches (repo : Repo) (p : List String) : Bool :=
  if !(is_file repo p) then false
  else if !(eligibleExt p) then false
  else
    match read_text repo p with
    | Except.error _ => false
    | Except.ok text => COMPILED.any (fun pat => rxSearch pat text)

/-- Absolute path of `lighting_crate = REPO_ROOT / "crates" / "geist-lighting"`. -/
def lcPath (repo : Repo) : List String :=
  repo.root ++ ["crates", "geist-lighting"]

/-- Paths of the direct entries of a directory (one `*` listing). -/
def entryPaths (base : List String) : FSList → List (List String)
  | FSList.nil => []
  | FSList.cons n _ rest => (base ++ [n]) :: entryPaths base rest

mutual

/-- Model of `Path.rglob("*")`: entries of each directory, directories
taken in pre-order (self first, then each subdirectory depth-first). -/
def rglobPaths (base : List String) : FSTree → List (List String)
  | FSTree.file _ => []
  | FSTree.dir ch => entryPaths base ch ++ rglobSub base ch

def rglobSub (base : List String) : FSList → List (List String)
  | FSList.nil => []
  | FSList.cons n t rest => rglobPaths (base ++ [n]) t ++ rglobSub base rest

end

/-- Phase 1 of `discover_files`: if the lighting crate exists, every
rglob entry that is a file with an eligible extension. -/
def phase1 (repo : Repo) : List (List String) :=
  match lookupAbs repo (lcPath repo) with
  | some t => (rglobPaths (lcPath repo) t).filter
      (fun p => is_file repo p && eligibleExt p)
  | none => []

/-- Files of one directory collected by the phase-2 walk body:
`p.suffix in CODE_EXTS and file_matches(p)` over the `filenames` of
`os.walk`, in listing order. -/
def walkFiles (repo : Repo) (cur : List String) : FSList → List (List String)
  | FSList.nil => []
  | FSList.cons n t rest =>
    (match t with
     | FSTree.file _ =>
       if eligibleExt (cur ++ [n]) && file_matches repo (cur ++ [n])
       then [cur ++ [n]] else []
     | FSTree.dir _ => []) ++ walkFiles repo cur rest

mutual

/-- Phase 2 of `discover_files`, the `os.walk(REPO_ROOT)` loop: at a
skip-listed directory prune (`dirs[:] = []; continue`); at the lighting
crate or any path whose string form starts with the crate's string form,
`continue` (no files, but children are still walked); otherwise collect
this directory's qualifying files and walk the children. -/
def walk2 (repo : Repo) (cur : List String) : FSTree → List (List String)
  | FSTree.file _ => []
  | FSTree.dir ch =>
    if is_skipped_dir cur then []
    else if cur == lcPath repo
        || strStartsWith (pathStr cur) (pathStr (lcPath repo)) then
      walk2Subs repo cur ch
    else
      walkFiles repo cur ch ++ walk2Subs repo cur ch

def walk2Subs (repo : Repo) (cur : List String) : FSList → List (List String)
  | FSList.nil => []
  | FSList.cons n t rest => walk2 repo (cur ++ [n]) t ++ walk2Subs repo cur rest

end

/-- Phase 2 started at the repository root. -/
def phase2 (repo : Repo) : List (List String) :=
  walk2 repo repo.root (FSTree.dir repo.tree)

/-- De-duplication by resolved path, first occurrence kept (`resolve` is
the identity in the model). -/
def dedupFirst : List (List String) → List (List String) → List (List String)
  | [], _ => []
  | p :: rest, seen =>
    if p ∈ seen then dedupFirst rest seen else p :: dedupFirst rest (p :: seen)

/-- `discover_files` from the script. -/
def discover_files (repo : Repo) : List (List String) :=
  dedupFirst (phase1 repo ++ phase2 repo) []

/-- `language_for` from the script: `CODE_EXTS.get(path.suffix, "")`. -/
def language_for (p : List String) : String :=
  match CODE_EXTS.find? (fun e => e.fst == suffix (lastComp p)) with
  | some e => e.snd
  | none => ""

/-- `str(p.relative_to(REPO_ROOT))` for a discovered file. -/
def relStr (repo : Repo) (p : List String) : String :=
  String.intercalate "/" (p.drop repo.root.length)

/-- Header lines of the bundle document. -/
def bundleHeader (repo : Repo) (ts : String) : List String :=
  ["# Lighting Code Bundle",
   "",
   "Generated: " ++ ts,
   "Repository: " ++ pathStr repo.root,
   "",
   "This file aggregates lighting-related code for review and optimization.",
   "",
   "## Table of Contents"]

/-- Table-of-contents lines, `enumerate(rel_paths, start=1)`. -/
def tocLines (repo : Repo) : Nat → List (List String) → List String
  | _, [] => []
  | i, p :: rest =>
    ("- [" ++ relStr repo p ++ "] (#file-" ++ toString i ++ ")")
      :: tocLines repo (i + 1) rest

/-- Lines of one per-file section: separator, heading, anchor and fenced
block.  On a read error the content is the literal error placeholder and
the language tag is cleared. -/
def fileBlock (repo : Repo) (i : Nat) (p : List String) : List String :=
  let rp := relStr repo p
  let res := read_text repo p
  let lang := match res with
    | Except.ok _ => language_for p
    | Except.error _ => ""
  let content := match res with
    | Except.ok text => text
    | Except.error e => "<Error reading file: " ++ e ++ ">"
  ["---", "", "## " ++ rp,
   "<a id=\"file-" ++ toString i ++ "\"></a>", "",
   "```" ++ lang, content, "```", ""]

/-- All per-file sections, `enumerate(zip(rel_paths, files), start=1)`. -/
def fileBlocks (repo : Repo) : Nat → List (List String) → List String
  | _, [] => []
  | i, p :: rest => fileBlock repo i p ++ fileBlocks repo (i + 1) rest

/-- The lines list built by `write_bundle` (the file content is later
joined with newlines; a multi-line file text stays one list element,
exactly as one `lines.append(content)` in the script). -/
def write_bundle_lines (repo : Repo) (ts : String) (files : List (List String)) :
    List String :=
  bundleHeader repo ts ++ (tocLines repo 1 files ++ ([""] ++ fileBlocks repo 1 files))

/-- Text written to OUTPUT_PATH by `write_bundle`. -/
def write_bundle (repo : Repo) (ts : String) (files : List (List String)) : String :=
  String.intercalate "\n" (write_bundle_lines repo ts files)

/-- `OUTPUT_PATH = REPO_ROOT / "LightingBundle.md"`. -/
def OUTPUT_PATH (repo : Repo) : List String :=
  repo.root ++ ["LightingBundle.md"]

/-- Observable outcome of one run of `main`: exit status, printed lines,
and the content written to OUTPUT_PATH (`none` when nothing is written). -/
structure RunResult where
  exitCode : Nat
  stdout : List String
  written : Option String

/-- `main` from the script (`ts` is the generation timestamp the run
observes from `datetime.now()`); named `main_run` because `main` is
reserved by Lean. -/
def main_run (repo : Repo) (ts : String) : RunResult :=
  let files := discover_files repo
  if files.isEmpty then
    { exitCode := 1
      stdout := ["No lighting-related files found."]
      written := none }
  else
    { exitCode := 0
      stdout := ["Wrote " ++ toString files.length ++ " files to "
                   ++ pathStr (OUTPUT_PATH repo)]
      written := some (write_bundle repo ts files) }

/-- Content of OUTPUT_PATH after a run, given its previous content. -/
def outputAfter (prev : Option String) (r : RunResult) : Option String :=
  match r.written with
  | some s => some s
  | none => prev

/-- Repository whose lighting crate holds a `target` directory with an
eligible file inside: `/repo/crates/geist-lighting/target/evil.rs`. -/
def c1repo : Repo :=
  { root := ["repo"]
    tree :=
      FSList.cons "crates"
        (FSTree.dir (FSList.cons "geist-lighting"
          (FSTree.dir (FSList.cons "target"
            (FSTree.dir (FSList.cons "evil.rs"
              (FSTree.file (Except.ok "nothing special")) FSList.nil))
            FSList.nil))
          FSList.nil))
        FSList.nil }

/-- Repository holding only a sibling crate `crates/geist-lighting-extra`
whose `lib.rs` mentions `LightingStore`. -/
def c2repo : Repo :=
  { root := ["repo"]
    tree :=
      FSList.cons "crates"
        (FSTree.dir (FSList.cons "geist-lighting-extra"
          (FSTree.dir (FSList.cons "lib.rs"
            (FSTree.file (Except.ok "uses LightingStore here")) FSList.nil))
          FSList.nil))
        FSList.nil }

/-- Repository with a populated lighting crate and one matching and one
non-matching file outside it. -/
def w3repo : Repo :=
  { root := ["g"]
    tree :=
      FSList.cons "crates"
        (FSTree.dir (FSList.cons "geist-lighting"
          (FSTree.dir (FSList.cons "src"
            (FSTree.dir (FSList.cons "lib.rs"
              (FSTree.file (Except.ok "pub fn propagate() {}")) FSList.nil))
            (FSList.cons "Cargo.toml" (FSTree.file (Except.ok "[package]"))
              FSList.nil)))
          FSList.nil))
        (FSList.cons "src"
          (FSTree.dir (FSList.cons "main.rs"
            (FSTree.file (Except.ok "let s = LightingStore::new();"))
            (FSList.cons "other.rs" (FSTree.file (Except.ok "nothing relevant"))
              FSList.nil)))
          FSList.nil) }

/-- Repository in which discovery finds nothing. -/
def w7repo : Repo :=
  { root := ["r"]
    tree := FSList.cons "README.md" (FSTree.file (Except.ok "docs")) FSList.nil }

/-- Repository with one unreadable and one readable eligible file. -/
def w8repo : Repo :=
  { root := ["r"]
    tree :=
      FSList.cons "bad.rs" (FSTree.file (Except.error "Permission denied"))
        (FSList.cons "good.rs" (FSTree.file (Except.ok "fn main() {}"))
          FSList.nil) }

/-- File list handed to the bundle writer for `w8repo`. -/
def w8files : List (List String) := [["r", "bad.rs"], ["r", "good.rs"]]

/-- Repository whose own absolute root path contains the skip-listed
component `target`. -/
def w10repo : Repo :=
  { root := ["home", "target", "geist"]
    tree :=
      FSList.cons "crates"
        (FSTree.dir (FSList.cons "geist-lighting"
          (FSTree.dir (FSList.cons "lib.rs"
            (FSTree.file (Except.ok "pub mod light;")) FSList.nil))
          FSList.nil))
        (FSList.cons "other"
          (FSTree.dir (FSList.cons "a.rs"
            (FSTree.file (Except.ok "uses LightingStore")) FSList.nil))
          FSList.nil) }

/-! Helper lemmas. -/

/-- No skip-listed name has an eligible extension. -/
theorem skip_not_eligible : ∀ n ∈ SKIP_DIRS, suffix n ∉ extKeys := by decide

/-- The last component of a path extended by one name is that name. -/
theorem lastComp_append_single : ∀ (l : List String) (a : String), lastComp (l ++ [a]) = a
  | [], _ => rfl
  | [_], _ => rfl
  | _ :: y :: rest, a => lastComp_append_single (y :: rest) a

/-- Skip test of an extended path. -/
theorem is_skipped_append_single (l : List String) (a : String) :
    is_skipped_dir (l ++ [a]) = (is_skipped_dir l || decide (a ∈ SKIP_DIRS)) := by
  simp [is_skipped_dir]

/-- A list is a Boolean prefix of itself extended. -/
theorem isPrefixOf_append_self : ∀ (l r : List String), l.isPrefixOf (l ++ r) = true
  | [], _ => by simp [List.isPrefixOf]
  | a :: l, r => by simp [List.isPrefixOf, isPrefixOf_append_self l r]

/-- A matching file passed the `is_file` guard. -/
theorem file_matches_is_file {repo : Repo} {p : List String}
    (h : file_matches repo p = true) : is_file repo p = true := by
  by_cases hf : is_file repo p
  · exact hf
  · simp [file_matches, hf] at h

/-- A successful read implies the path is a regular file. -/
theorem read_ok_is_file {repo : Repo} {p : List String} {text : String}
    (h : read_text repo p = Except.ok text) : is_file repo p = true := by
  unfold read_text at h
  unfold is_file
  cases hl : lookupAbs repo p with
  | none => rw [hl] at h; exact absurd h (by simp)
  | some t =>
    cases t with
    | file c => rfl
    | dir ch =>
      rw [hl] at h
      exact absurd h (by simp)

/-- Files collected in one directory by the phase-2 body are children of
that directory, eligible and matching. -/
theorem walkFiles_mem (repo : Repo) (cur : List String) :
    ∀ (ch : FSList) (p : List String), p ∈ walkFiles repo cur ch →
      ∃ n, p = cur ++ [n] ∧ eligibleExt p = true ∧ file_matches repo p = true
  | FSList.nil, p, h => absurd h (by simp [walkFiles])
  | FSList.cons n t rest, p, h => by
    cases t with
    | file c =>
      rw [walkFiles] at h
      rcases List.mem_append.mp h with h1 | h2
      · by_cases hc : (eligibleExt (cur ++ [n]) && file_matches repo (cur ++ [n])) = true
        · rw [if_pos hc] at h1
          rw [Bool.and_eq_true] at hc
          have hp := List.mem_singleton.mp h1
          exact ⟨n, hp, hp ▸ hc.1, hp ▸ hc.2⟩
        · rw [if_neg hc] at h1
          exact absurd h1 (by simp)
      · exact walkFiles_mem repo cur rest p h2
    | dir ch2 =>
      rw [walkFiles] at h
      rcases List.mem_append.mp h with h1 | h2
      · exact absurd h1 (by simp)
      · exact walkFiles_mem repo cur rest p h2

mutual

/-- Every path emitted by the phase-2 walk is eligible, matching, and has
no skip-listed component. -/
theorem walk2_mem (repo : Repo) :
    ∀ (cur : List String) (t : FSTree) (p : List String), p ∈ walk2 repo cur t →
      eligibleExt p = true ∧ file_matches repo p = true ∧ is_skipped_dir p = false
  | cur, FSTree.file _, p, h => absurd h (by simp [walk2])
  | cur, FSTree.dir ch, p, h => by
    rw [walk2] at h
    by_cases hs : is_skipped_dir cur = true
    · rw [if_pos hs] at h
      exact absurd h (by simp)
    · rw [if_neg hs] at h
      by_cases hc : (cur == lcPath repo
          || strStartsWith (pathStr cur) (pathStr (lcPath repo))) = true
      · rw [if_pos hc] at h
        exact walk2Subs_mem repo cur ch p h
      · rw [if_neg hc] at h
        rcases List.mem_append.mp h with h1 | h2
        · obtain ⟨n, hp, he, hm⟩ := walkFiles_mem repo cur ch p h1
          refine ⟨he, hm, ?_⟩
          have hn : n ∉ SKIP_DIRS := by
            intro hmem
            apply skip_not_eligible n hmem
            have hl : lastComp (cur ++ [n]) = n := lastComp_append_single cur n
            have he2 : eligibleExt (cur ++ [n]) = true := hp ▸ he
            unfold eligibleExt at he2
            rw [hl] at he2
            exact of_decide_eq_true he2
          rw [Bool.not_eq_true] at hs
          rw [hp, is_skipped_append_single]
          simp [hs, hn]
        · exact walk2Subs_mem repo cur ch p h2

theorem walk2Subs_mem (repo : Repo) :
    ∀ (cur : List String) (ch : FSList) (p : List String), p ∈ walk2Subs repo cur ch →
      eligibleExt p = true ∧ file_matches repo p = true ∧ is_skipped_dir p = false
  | cur, FSList.nil, p, h => absurd h (by simp [walk2Subs])
  | cur, FSList.cons n t rest, p, h => by
    rw [walk2Subs] at h
    rcases List.mem_append.mp h with h1 | h2
    · exact walk2_mem repo (cur ++ [n]) t p h1
    · exact walk2Subs_mem repo cur rest p h2

end

/-- Direct entries listed by one `*` step extend the base by one name. -/
theorem entryPaths_mem (base : List String) :
    ∀ (ch : FSList) (p : List String), p ∈ entryPaths base ch → ∃ n, p = base ++ [n]
  | FSList.nil, p, h => absurd h (by simp [entryPaths])
  | FSList.cons n _ rest, p, h => by
    rw [entryPaths] at h
    rcases List.mem_cons.mp h with h1 | h2
    · exact ⟨n, h1⟩
    · exact entryPaths_mem base rest p h2

mutual

/-- Every rglob entry extends the base path. -/
theorem rglobPaths_mem :
    ∀ (base : List String) (t : FSTree) (p : List String), p ∈ rglobPaths base t →
      ∃ rel, p = base ++ rel
  | base, FSTree.file _, p, h => absurd h (by simp [rglobPaths])
  | base, FSTree.dir ch, p, h => by
    rw [rglobPaths] at h
    rcases List.mem_append.mp h with h1 | h2
    · obtain ⟨n, hn⟩ := entryPaths_mem base ch p h1
      exact ⟨[n], hn⟩
    · exact rglobSub_mem base ch p h2

theorem rglobSub_mem :
    ∀ (base : List String) (ch : FSList) (p : List String), p ∈ rglobSub base ch →
      ∃ rel, p = base ++ rel
  | base, FSList.nil, p, h => absurd h (by simp [rglobSub])
  | base, FSList.cons n t rest, p, h => by
    rw [rglobSub] at h
    rcases List.mem_append.mp h with h1 | h2
    · obtain ⟨rel, hr⟩ := rglobPaths_mem (base ++ [n]) t p h1
      exact ⟨n :: rel, by simpa using hr⟩
    · exact rglobSub_mem base rest p h2

end

/-- Every phase-1 path lies beneath the lighting crate, is a regular file
and has an eligible extension. -/
theorem phase1_mem (repo : Repo) (p : List String) (h : p ∈ phase1 repo) :
    (∃ rel, p = lcPath repo ++ rel) ∧ is_file repo p = true ∧ eligibleExt p = true := by
  unfold phase1 at h
  split at h
  case _ t heq =>
    obtain ⟨hmem, hcond⟩ := List.mem_filter.mp h
    rw [Bool.and_eq_true] at hcond
    exact ⟨rglobPaths_mem _ t p hmem, hcond.1, hcond.2⟩
  case _ => exact absurd h (by simp)

/-- De-duplication keeps a sublist of its input. -/
theorem dedupFirst_sublist : ∀ (l seen : List (List String)),
    List.Sublist (dedupFirst l seen) l
  | [], _ => List.nil_sublist []
  | p :: rest, seen => by
    rw [dedupFirst]
    by_cases hp : p ∈ seen
    · rw [if_pos hp]
      exact List.Sublist.cons p (dedupFirst_sublist rest seen)
    · rw [if_neg hp]
      exact List.Sublist.cons₂ p (dedupFirst_sublist rest (p :: seen))

/-- Membership after de-duplication: present in the input and not among
the already-seen paths. -/
theorem dedupFirst_mem : ∀ (l seen : List (List String)) (p : List String),
    p ∈ dedupFirst l seen ↔ p ∈ l ∧ p ∉ seen
  | [], seen, p => by simp [dedupFirst]
  | q :: rest, seen, p => by
    rw [dedupFirst]
    by_cases hq : q ∈ seen
    · rw [if_pos hq, dedupFirst_mem rest seen p]
      constructor
      · rintro ⟨h1, h2⟩
        exact ⟨List.mem_cons_of_mem q h1, h2⟩
      · rintro ⟨h1, h2⟩
        rcases List.mem_cons.mp h1 with rfl | h1
        · exact absurd hq h2
        · exact ⟨h1, h2⟩
    · rw [if_neg hq]
      constructor
      · intro h
        rcases List.mem_cons.mp h with rfl | h
        · exact ⟨List.mem_cons_self p rest, hq⟩
        · obtain ⟨h1, h2⟩ := (dedupFirst_mem rest (q :: seen) p).mp h
          exact ⟨List.mem_cons_of_mem q h1,
            fun hx => h2 (List.mem_cons_of_mem q hx)⟩
      · rintro ⟨h1, h2⟩
        by_cases hpq : p = q
        · subst hpq
          exact List.mem_cons_self p _
        · rcases List.mem_cons.mp h1 with h | h
          · exact absurd h hpq
          · exact List.mem_cons_of_mem q
              ((dedupFirst_mem rest (q :: seen) p).mpr
                ⟨h, by simp [List.mem_cons, hpq, h2]⟩)

/-- De-duplication yields a duplicate-free list. -/
theorem dedupFirst_nodup : ∀ (l seen : List (List String)), (dedupFirst l seen).Nodup
  | [], seen => by simp [dedupFirst]
  | q :: rest, seen => by
    rw [dedupFirst]
    by_cases hq : q ∈ seen
    · rw [if_pos hq]
      exact dedupFirst_nodup rest seen
    · rw [if_neg hq]
      refine List.nodup_cons.mpr ⟨?_, dedupFirst_nodup rest (q :: seen)⟩
      intro hmem
      exact ((dedupFirst_mem rest (q :: seen) q).mp hmem).2 (List.mem_cons_self q seen)

/-- The bundle header has eight lines. -/
theorem bundleHeader_length (repo : Repo) (ts : String) :
    (bundleHeader repo ts).length = 8 := rfl

/-- Every per-file section has nine lines. -/
theorem fileBlock_length (repo : Repo) (i : Nat) (p : List String) :
    (fileBlock repo i p).length = 9 := by
  unfold fileBlock
  cases read_text repo p <;> rfl

/-- One table-of-contents line per file. -/
theorem tocLines_length (repo : Repo) :
    ∀ (start : Nat) (files : List (List String)),
      (tocLines repo start files).length = files.length
  | _, [] => rfl
  | start, _ :: rest => by
    simp [tocLines, tocLines_length repo (start + 1) rest]

/-- Nine lines per file in the body. -/
theorem fileBlocks_length (repo : Repo) :
    ∀ (start : Nat) (files : List (List String)),
      (fileBlocks repo start files).length = 9 * files.length
  | _, [] => rfl
  | start, p :: rest => by
    simp [fileBlocks, List.length_append, fileBlock_length,
      fileBlocks_length repo (start + 1) rest]
    omega

/-- Indexing into the table of contents. -/
theorem tocLines_getElem (repo : Repo) :
    ∀ (files : List (List String)) (k start : Nat) (hk : k < files.length),
      (tocLines repo start files)[k]? =
        some ("- [" ++ relStr repo (files[k]) ++ "] (#file-" ++ toString (start + k) ++ ")")
  | [], k, _, hk => absurd hk (by simp)
  | p :: rest, 0, start, _ => by simp [tocLines]
  | p :: rest, k + 1, start, hk => by
    rw [tocLines, List.getElem?_cons_succ,
      tocLines_getElem repo rest k (start + 1) (by simpa using hk)]
    have h1 : start + 1 + k = start + (k + 1) := by omega
    rw [h1]
    simp

/-- Indexing into the body blocks. -/
theorem fileBlocks_getElem (repo : Repo) :
    ∀ (files : List (List String)) (k j start : Nat) (hk : k < files.length)
      (hj : j < 9),
      (fileBlocks repo start files)[9 * k + j]? =
        (fileBlock repo (start + k) (files[k]))[j]?
  | [], k, _, _, hk, _ => absurd hk (by simp)
  | p :: rest, 0, j, start, _, hj => by
    rw [fileBlocks, List.getElem?_append, fileBlock_length]
    simp [hj]
  | p :: rest, k + 1, j, start, hk, hj => by
    rw [fileBlocks,
      List.getElem?_append_right (by rw [fileBlock_length]; omega),
      fileBlock_length]
    have h1 : 9 * (k + 1) + j - 9 = 9 * k + j := by omega
    rw [h1, fileBlocks_getElem repo rest k j (start + 1) (by simpa using hk) hj]
    have h2 : start + 1 + k = start + (k + 1) := by omega
    rw [h2]
    simp

/-- Position of a table-of-contents line in the full document. -/
theorem bundle_toc_getElem (repo : Repo) (ts : String) (files : List (List String))
    (i : Nat) (hi : i < files.length) :
    (write_bundle_lines repo ts files)[8 + i]? =
      some ("- [" ++ relStr repo (files[i]) ++ "] (#file-" ++ toString (1 + i) ++ ")") := by
  unfold write_bundle_lines
  rw [List.getElem?_append_right (by rw [bundleHeader_length]; omega)]
  rw [bundleHeader_length]
  have h1 : 8 + i - 8 = i := by omega
  rw [h1, List.getElem?_append, tocLines_length, if_pos hi]
  exact tocLines_getElem repo files i 1 hi

/-- Position of line `j` of the `i`-th per-file section in the document. -/
theorem bundle_block_getElem (repo : Repo) (ts : String) (files : List (List String))
    (i j : Nat) (hi : i < files.length) (hj : j < 9) :
    (write_bundle_lines repo ts files)[9 + files.length + 9 * i + j]? =
      (fileBlock repo (1 + i) (files[i]))[j]? := by
  unfold write_bundle_lines
  rw [List.getElem?_append_right (by rw [bundleHeader_length]; omega),
    bundleHeader_length]
  have h1 : 9 + files.length + 9 * i + j - 8 = 1 + files.length + 9 * i + j := by omega
  rw [h1, List.getElem?_append_right (by rw [tocLines_length]; omega), tocLines_length]
  have h2 : 1 + files.length + 9 * i + j - files.length = 1 + (9 * i + j) := by omega
  rw [h2, List.getElem?_append_right (by simp)]
  have h3 : 1 + (9 * i + j) - [""].length = 9 * i + j := by simp
  rw [h3]
  exact fileBlocks_getElem repo files i j 1 hi hj

/-- Total line count of the rendered document. -/
theorem write_bundle_lines_length (repo : Repo) (ts : String)
    (files : List (List String)) :
    (write_bundle_lines repo ts files).length = 9 + 10 * files.length := by
  unfold write_bundle_lines
  rw [List.length_append, List.length_append, List.length_append,
    bundleHeader_length, tocLines_length, fileBlocks_length]
  simp
  omega

/-- Fence and content lines of a section whose read fails. -/
theorem fileBlock_read_error (repo : Repo) (k : Nat) (p : List String) (e : String)
    (h : read_text repo p = Except.error e) :
    (fileBlock repo k p)[5]? = some "```" ∧
    (fileBlock repo k p)[6]? = some ("<Error reading file: " ++ e ++ ">") := by
  unfold fileBlock
  rw [h]
  exact ⟨rfl, rfl⟩

/-- Fence and content lines of a section whose read succeeds. -/
theorem fileBlock_read_ok (repo : Repo) (k : Nat) (p : List String) (text : String)
    (h : read_text repo p = Except.ok text) :
    (fileBlock repo k p)[5]? = some ("```" ++ language_for p) ∧
    (fileBlock repo k p)[6]? = some text := by
  unfold fileBlock
  rw [h]
  exact ⟨rfl, rfl⟩

/-! Claim theorems. -/

/-- C1 counterexample: in `c1repo` the file
`/repo/crates/geist-lighting/target/evil.rs` has the skip-listed name
`target` as a path component, yet `discover_files` returns it: the
phase-1 crate scan never consults the skip list, refuting the claim as
stated for files beneath the primary directory. -/
theorem c1_skip_dir_counterexample :
    is_skipped_dir ["repo", "crates", "geist-lighting", "target", "evil.rs"] = true ∧
    ["repo", "crates", "geist-lighting", "target", "evil.rs"] ∈ discover_files c1repo := by
  constructor
  · decide
  · decide

/-- C1 (amended): a path returned by `discover_files` that has a
skip-listed name among its components necessarily lies beneath the
primary directory `crates/geist-lighting`; outside the primary
directory, a file whose path contains a skip-listed component never
appears in the result, phase 2 respects the skip list. -/
theorem c1_skip_dir_excluded_outside_primary (repo : Repo) (p : List String)
    (hmem : p ∈ discover_files repo) (hskip : is_skipped_dir p = true) :
    (lcPath repo).isPrefixOf p = true := by
  have hp : p ∈ phase1 repo ++ phase2 repo := by
    have h := (dedupFirst_mem (phase1 repo ++ phase2 repo) [] p).mp hmem
    exact h.1
  rcases List.mem_append.mp hp with h1 | h2
  · obtain ⟨⟨rel, hrel⟩, _, _⟩ := phase1_mem repo p h1
    rw [hrel]
    exact isPrefixOf_append_self _ _
  · unfold phase2 at h2
    have h3 := walk2_mem repo repo.root (FSTree.dir repo.tree) p h2
    rw [h3.2.2] at hskip
    exact absurd hskip (by simp)

/-- C1 witness: the amended theorem applied to `c1repo` at the concrete
discovered path that contains the skip-listed component `target`. -/
theorem c1_skip_dir_excluded_outside_primary_witness :
    (lcPath c1repo).isPrefixOf
      ["repo", "crates", "geist-lighting", "target", "evil.rs"] = true :=
  c1_skip_dir_excluded_outside_primary c1repo
    ["repo", "crates", "geist-lighting", "target", "evil.rs"]
    (by decide) (by decide)

/-- C2 (code bug, evaluation at the failing input): in `c2repo` the file
`/repo/crates/geist-lighting-extra/lib.rs` is eligible, matches the
pattern set, and its directory is not skip-listed and is not the primary
directory nor nested under it, yet `discover_files` misses it, because
`str(root_path).startswith(str(lighting_crate))` also skips sibling
directories whose name merely begins with `geist-lighting`. -/
theorem c2_sibling_crate_wrongly_skipped :
    eligibleExt ["repo", "crates", "geist-lighting-extra", "lib.rs"] = true ∧
    file_matches c2repo ["repo", "crates", "geist-lighting-extra", "lib.rs"] = true ∧
    is_skipped_dir ["repo", "crates", "geist-lighting-extra", "lib.rs"] = false ∧
    (["repo", "crates", "geist-lighting-extra"] ≠ lcPath c2repo) ∧
    (lcPath c2repo).isPrefixOf ["repo", "crates", "geist-lighting-extra"] = false ∧
    ["repo", "crates", "geist-lighting-extra", "lib.rs"] ∉ discover_files c2repo := by
  refine ⟨by decide, by decide, by decide, by decide, by decide, by decide⟩

/-- C3: every path returned by `discover_files` exists as a regular file
and has an eligible extension; the result is duplicate-free (resolution
is the identity here), is a sublist of the concatenated phase outputs
(first-seen order preserved), has exactly the members of the two phases,
and keeps every phase-1 path (phase-1 precedence). -/
theorem c3_discover_files_invariant (repo : Repo) :
    (∀ p ∈ discover_files repo, is_file repo p = true ∧ eligibleExt p = true) ∧
    (discover_files repo).Nodup ∧
    List.Sublist (discover_files repo) (phase1 repo ++ phase2 repo) ∧
    (∀ p, p ∈ discover_files repo ↔ p ∈ phase1 repo ++ phase2 repo) ∧
    (∀ p ∈ phase1 repo, p ∈ discover_files repo) := by
  refine ⟨?_, dedupFirst_nodup _ _, dedupFirst_sublist _ _, ?_, ?_⟩
  · intro p hp
    have hp2 := ((dedupFirst_mem (phase1 repo ++ phase2 repo) [] p).mp hp).1
    rcases List.mem_append.mp hp2 with h1 | h2
    · obtain ⟨_, hf, he⟩ := phase1_mem repo p h1
      exact ⟨hf, he⟩
    · unfold phase2 at h2
      have h3 := walk2_mem repo repo.root (FSTree.dir repo.tree) p h2
      exact ⟨file_matches_is_file h3.2.1, h3.1⟩
  · intro p
    rw [discover_files, dedupFirst_mem]
    simp
  · intro p hp
    rw [discover_files, dedupFirst_mem]
    exact ⟨List.mem_append_left _ hp, by simp⟩

/-- C3 witness: the invariant evaluated on `w3repo` at a concrete
discovered path. -/
theorem c3_discover_files_invariant_witness :
    is_file w3repo ["g", "crates", "geist-lighting", "src", "lib.rs"] = true ∧
    eligibleExt ["g", "crates", "geist-lighting", "src", "lib.rs"] = true :=
  (c3_discover_files_invariant w3repo).1
    ["g", "crates", "geist-lighting", "src", "lib.rs"] (by decide)

/-- C4: `file_matches` returns false when the path is not a regular file,
or its extension is not a key of CODE_EXTS, or the read raises (the
function is total: the error is swallowed, not propagated); otherwise it
returns true iff some pattern of the fixed pattern set matches somewhere
in the decoded text. -/
theorem c4_file_matches_spec (repo : Repo) (p : List String) :
    (is_file repo p = false → file_matches repo p = false) ∧
    (eligibleExt p = false → file_matches repo p = false) ∧
    (∀ e, read_text repo p = Except.error e → file_matches repo p = false) ∧
    (∀ text, eligibleExt p = true → read_text repo p = Except.ok text →
      (file_matches repo p = true ↔
        COMPILED.any (fun pat => rxSearch pat text) = true)) := by
  refine ⟨?_, ?_, ?_, ?_⟩
  · intro h
    simp [file_matches, h]
  · intro h
    simp [file_matches, h]
  · intro e h
    simp [file_matches, h]
  · intro text he hr
    have hf : is_file repo p = true := read_ok_is_file hr
    simp [file_matches, hf, he, hr]

/-- C4 witness: the characterisation applied at a concrete readable,
eligible, matching file. -/
theorem c4_file_matches_spec_witness :
    file_matches c2repo ["repo", "crates", "geist-lighting-extra", "lib.rs"] = true :=
  ((c4_file_matches_spec c2repo ["repo", "crates", "geist-lighting-extra", "lib.rs"]).2.2.2
    "uses LightingStore here" (by decide) rfl).mpr (by decide)

/-- C5: the rendered document has one table-of-contents entry per file in
list order, and for the i-th file (1-based index i+1 here written over a
0-based i) a later section whose heading shows the same relative path
and whose anchor tag has id `file-(i+1)`, in the same order. -/
theorem c5_toc_section_alignment (repo : Repo) (ts : String)
    (files : List (List String)) (i : Nat) (hi : i < files.length) :
    (write_bundle_lines repo ts files)[8 + i]? =
      some ("- [" ++ relStr repo (files[i]) ++ "] (#file-" ++ toString (i + 1) ++ ")") ∧
    (write_bundle_lines repo ts files)[9 + files.length + 9 * i + 2]? =
      some ("## " ++ relStr repo (files[i])) ∧
    (write_bundle_lines repo ts files)[9 + files.length + 9 * i + 3]? =
      some ("<a id=\"file-" ++ toString (i + 1) ++ "\"></a>") ∧
    8 + i < 9 + files.length + 9 * i + 2 := by
  have hcomm : 1 + i = i + 1 := Nat.add_comm 1 i
  refine ⟨?_, ?_, ?_, by omega⟩
  · have h := bundle_toc_getElem repo ts files i hi
    rwa [hcomm] at h
  · have h := bundle_block_getElem repo ts files i 2 hi (by omega)
    rw [h]
    rfl
  · have h := bundle_block_getElem repo ts files i 3 hi (by omega)
    rw [hcomm] at h
    rw [h]
    rfl

/-- C5 witness: alignment evaluated at a concrete one-file list. -/
theorem c5_toc_section_alignment_witness :
    (write_bundle_lines w3repo "T" [["g", "src", "main.rs"]])[8]? =
      some "- [src/main.rs] (#file-1)" :=
  ((c5_toc_section_alignment w3repo "T" [["g", "src", "main.rs"]] 0 (by decide)).1).trans
    (by decide)

/-- C6: `main` returns exit status 1 with the no-files message and no
write when discovery is empty; otherwise it writes the bundle, prints
the success message carrying the file count and output path, and
returns 0; the exit status is always 0 or 1. -/
theorem c6_main_run_exit_paths (repo : Repo) (ts : String) :
    (discover_files repo = [] →
      main_run repo ts =
        { exitCode := 1, stdout := ["No lighting-related files found."],
          written := none }) ∧
    (discover_files repo ≠ [] →
      (main_run repo ts).exitCode = 0 ∧
      (main_run repo ts).written = some (write_bundle repo ts (discover_files repo)) ∧
      (main_run repo ts).stdout =
        ["Wrote " ++ toString (discover_files repo).length ++ " files to "
          ++ pathStr (OUTPUT_PATH repo)]) ∧
    ((main_run repo ts).exitCode = 0 ∨ (main_run repo ts).exitCode = 1) := by
  refine ⟨?_, ?_, ?_⟩
  · intro h
    simp [main_run, h]
  · intro h
    have hne : (discover_files repo).isEmpty = false := by
      cases hb : (discover_files repo).isEmpty
      · rfl
      · exact absurd (List.isEmpty_iff.mp hb) h
    simp [main_run, hne]
  · by_cases hb : (discover_files repo).isEmpty = true
    · right
      simp [main_run, hb]
    · left
      simp [main_run, hb]

/-- C6 witness: the empty branch evaluated on a repository where
discovery finds nothing. -/
theorem c6_main_run_exit_paths_witness :
    main_run w7repo "T" =
      { exitCode := 1, stdout := ["No lighting-related files found."],
        written := none } :=
  (c6_main_run_exit_paths w7repo "T").1 (by decide)

/-- C7: when discovery is empty nothing is written: the run result
carries no written content, and the output file keeps whatever content
it had before the run. -/
theorem c7_empty_discovery_no_write (repo : Repo) (ts : String)
    (h : discover_files repo = []) :
    (main_run repo ts).written = none ∧
    ∀ prev, outputAfter prev (main_run repo ts) = prev := by
  have hm : main_run repo ts =
      { exitCode := 1, stdout := ["No lighting-related files found."],
        written := none } := by
    simp [main_run, h]
  rw [hm]
  exact ⟨rfl, fun _ => rfl⟩

/-- C7 witness: preservation of an existing output file on the empty
branch, at a concrete repository. -/
theorem c7_empty_discovery_no_write_witness :
    (main_run w7repo "T").written = none ∧
    outputAfter (some "previous bundle") (main_run w7repo "T") = some "previous bundle" := by
  have h := c7_empty_discovery_no_write w7repo "T" (by decide)
  exact ⟨h.1, h.2 (some "previous bundle")⟩

/-- C8: if reading the i-th file fails at render time its fenced block
opens with an empty language tag and contains the literal error
placeholder; files read successfully keep the language label mapped from
their extension; and the document always has a section for every file
(rendering continues). -/
theorem c8_render_error_placeholder (repo : Repo) (ts : String)
    (files : List (List String)) (i : Nat) (hi : i < files.length) :
    (∀ e, read_text repo (files[i]) = Except.error e →
      (write_bundle_lines repo ts files)[9 + files.length + 9 * i + 5]? = some "```" ∧
      (write_bundle_lines repo ts files)[9 + files.length + 9 * i + 6]? =
        some ("<Error reading file: " ++ e ++ ">")) ∧
    (∀ text, read_text repo (files[i]) = Except.ok text →
      (write_bundle_lines repo ts files)[9 + files.length + 9 * i + 5]? =
        some ("```" ++ language_for (files[i])) ∧
      (write_bundle_lines repo ts files)[9 + files.length + 9 * i + 6]? = some text) ∧
    (write_bundle_lines repo ts files).length = 9 + 10 * files.length := by
  refine ⟨?_, ?_, write_bundle_lines_length repo ts files⟩
  · intro e he
    have h5 := bundle_block_getElem repo ts files i 5 hi (by omega)
    have h6 := bundle_block_getElem repo ts files i 6 hi (by omega)
    obtain ⟨b5, b6⟩ := fileBlock_read_error repo (1 + i) (files[i]) e he
    exact ⟨h5.trans b5, h6.trans b6⟩
  · intro text ht
    have h5 := bundle_block_getElem repo ts files i 5 hi (by omega)
    have h6 := bundle_block_getElem repo ts files i 6 hi (by omega)
    obtain ⟨b5, b6⟩ := fileBlock_read_ok repo (1 + i) (files[i]) text ht
    exact ⟨h5.trans b5, h6.trans b6⟩

/-- C8 witness: a failing and a succeeding file rendered side by side in
one document. -/
theorem c8_render_error_placeholder_witness :
    (write_bundle_lines w8repo "T" w8files)[16]? = some "```" ∧
    (write_bundle_lines w8repo "T" w8files)[17]? =
      some "<Error reading file: Permission denied>" ∧
    (write_bundle_lines w8repo "T" w8files)[25]? = some "```rust" ∧
    (write_bundle_lines w8repo "T" w8files)[26]? = some "fn main() {}" := by
  have h0 := (c8_render_error_placeholder w8repo "T" w8files 0 (by decide)).1
    "Permission denied" rfl
  have h1 := (c8_render_error_placeholder w8repo "T" w8files 1 (by decide)).2.1
    "fn main() {}" rfl
  exact ⟨h0.1, h0.2.trans (by decide), h1.1.trans (by decide), h1.2⟩

/-- C9: the rendered document is a deterministic function of the file
tree and the timestamp, and two renders over the same tree agree on
every line except line index 2, the `Generated: <timestamp>` line. -/
theorem c9_bundle_deterministic (repo : Repo) (files : List (List String))
    (ts1 ts2 : String) :
    (write_bundle_lines repo ts1 files)[2]? = some ("Generated: " ++ ts1) ∧
    ∀ j, j ≠ 2 →
      (write_bundle_lines repo ts1 files)[j]? =
        (write_bundle_lines repo ts2 files)[j]? := by
  constructor
  · rfl
  · intro j hj
    by_cases hb : j < 8
    · interval_cases j
      · rfl
      · rfl
      · exact absurd rfl hj
      · rfl
      · rfl
      · rfl
      · rfl
      · rfl
    · unfold write_bundle_lines
      rw [List.getElem?_append_right (by rw [bundleHeader_length]; omega)]
      conv_rhs => rw [List.getElem?_append_right (by rw [bundleHeader_length]; omega)]
      rfl

/-- C9 witness: two renders with different timestamps agree on line 0. -/
theorem c9_bundle_deterministic_witness :
    (write_bundle_lines w3repo "2026-01-01T00:00:00" [])[0]? =
      (write_bundle_lines w3repo "2026-02-02T00:00:00" [])[0]? :=
  (c9_bundle_deterministic w3repo [] "2026-01-01T00:00:00" "2026-02-02T00:00:00").2
    0 (by decide)

/-- C10: `is_skipped_dir` tests every component of the absolute path, so
when the repository root itself contains a skip-listed name the very
first phase-2 directory is pruned: phase 2 contributes nothing and
discovery returns exactly the de-duplicated phase-1 files. -/
theorem c10_skip_named_root_prunes_phase2 (repo : Repo)
    (h : is_skipped_dir repo.root = true) :
    phase2 repo = [] ∧ discover_files repo = dedupFirst (phase1 repo) [] := by
  have h2 : phase2 repo = [] := by
    unfold phase2
    rw [walk2, if_pos h]
  refine ⟨h2, ?_⟩
  rw [discover_files, h2, List.append_nil]

/-- C10 witness: a repository rooted at `/home/target/geist`; even its
matching file outside the crate is lost, only phase-1 files remain. -/
theorem c10_skip_named_root_prunes_phase2_witness :
    phase2 w10repo = [] ∧ discover_files w10repo = dedupFirst (phase1 w10repo) [] :=
  c10_skip_named_root_prunes_phase2 w10repo (by decide)
